import Mathlib

/-!
Shallow embedding of the draft-job lifecycle and resumable multi-file upload
tracker of `src/routes/jobs.ts` (Hono route handlers over a D1 relational
store and an R2 blob store), together with proofs of the spec's testable
properties.

Tables are modelled as lists of rows in rowid (insertion) order, matching
D1/SQLite semantics for `.first()` and unordered scans on these tables.
Nondeterministic inputs of the handlers (generated UUIDs, whether the blob
`put` promise resolves) are passed as explicit parameters.
-/

namespace PicDrm

/-- One row of the `jobs` table (columns as inserted by `createDraftRoute`). -/
structure JobRow where
  id : String
  user_email : String
  security_text : String
  anti_screenshot : Nat
  anti_copy : Nat
  view_limit : Nat
  domain_restrict : Nat
  expiration : Nat
  status : String
  total_files : Nat
  uploaded_files : Nat
deriving DecidableEq, Repr

/-- One row of the `job_files` table. -/
structure JobFileRow where
  job_id : String
  original_name : String
  folder_name : String
  storage_key : String
  size_bytes : Nat
  upload_status : String
  file_index : Nat
deriving DecidableEq, Repr

/-- One row of the `job_recipients` table. -/
structure RecipientRow where
  job_id : String
  email : String
  source : String
deriving DecidableEq, Repr

/-- Combined state: the three D1 tables plus the R2 bucket contents
(association list from storage key to byte payload). -/
structure DBState where
  jobs : List JobRow
  job_files : List JobFileRow
  job_recipients : List RecipientRow
  blobs : List (String × List Nat)
deriving DecidableEq, Repr

/-- The empty store. -/
def dbEmpty : DBState := ⟨[], [], [], []⟩

/-- R2 `put(key, bytes)`: overwrite semantics, no partial-write visibility. -/
def putBlob (key : String) (bytes : List Nat) (bs : List (String × List Nat)) :
    List (String × List Nat) :=
  (key, bytes) :: bs.filter (fun p => !(p.1 == key))

/-- R2 `get(key)` (used only to state properties about stored payloads). -/
def getBlob (key : String) (bs : List (String × List Nat)) : Option (List Nat) :=
  (bs.find? (fun p => p.1 == key)).map (·.2)

/-- `security` object of the create-draft request body (`SecurityOptionsSchema`). -/
structure SecurityOptions where
  securityText : String
  antiScreenshot : Bool
  antiCopy : Bool
  viewLimit : Bool
  domainRestrict : Bool
  expiration : Bool
deriving DecidableEq, Repr

/-- One recipient of the create-draft request body (`RecipientSchema`). -/
structure Recipient where
  email : String
  source : String
deriving DecidableEq, Repr

/-- One file-metadata entry of the create-draft request body
(`DraftFileMetaItemSchema`). -/
structure DraftFileMetaItem where
  folderName : String
  fileName : String
  sizeBytes : Nat
deriving DecidableEq, Repr

/-- Storage key pre-assigned per file:
`jobs/${jobId}/${crypto.randomUUID()}-${meta.fileName}` with the random
UUID passed in explicitly. -/
def storageKey (jobId uuid fileName : String) : String :=
  "jobs/" ++ jobId ++ "/" ++ uuid ++ "-" ++ fileName

/-- The `jobs` row inserted by the first statement of the create-draft
handler (status `draft`, `uploaded_files` 0). -/
def draftJobRow (jobId userEmail : String) (security : SecurityOptions)
    (totalFiles : Nat) : JobRow :=
  { id := jobId
    user_email := userEmail
    security_text := security.securityText
    anti_screenshot := if security.antiScreenshot then 1 else 0
    anti_copy := if security.antiCopy then 1 else 0
    view_limit := if security.viewLimit then 1 else 0
    domain_restrict := if security.domainRestrict then 1 else 0
    expiration := if security.expiration then 1 else 0
    status := "draft"
    total_files := totalFiles
    uploaded_files := 0 }

/-- First store write of the create-draft handler: the single
`INSERT INTO jobs ...` statement, awaited on its own before the batch. -/
def createDraftJobInsert (st : DBState) (jobId userEmail : String)
    (security : SecurityOptions) (totalFiles : Nat) : DBState :=
  { st with jobs := st.jobs ++ [draftJobRow jobId userEmail security totalFiles] }

/-- The `job_files` placeholder rows built from the request's `fileMeta`
(index = position in the list, status `pending`, pre-assigned storage key). -/
def draftFileRows (jobId : String) (fileMeta : List DraftFileMetaItem)
    (uuids : List String) : List JobFileRow :=
  (List.zip fileMeta uuids).enum.map fun p =>
    { job_id := jobId
      original_name := p.2.1.fileName
      folder_name := p.2.1.folderName
      storage_key := storageKey jobId p.2.2 p.2.1.fileName
      size_bytes := p.2.1.sizeBytes
      upload_status := "pending"
      file_index := p.1 }

/-- The `job_recipients` rows built from the request's `recipients`. -/
def draftRecipientRows (jobId : String) (recipients : List Recipient) :
    List RecipientRow :=
  recipients.map fun r => { job_id := jobId, email := r.email, source := r.source }

/-- Second store write of the create-draft handler: the
`DB.batch([...fileInserts, ...recipientInserts])` call, all-or-nothing. -/
def createDraftBatch (st : DBState) (jobId : String)
    (fileMeta : List DraftFileMetaItem) (uuids : List String)
    (recipients : List Recipient) : DBState :=
  { st with
      job_files := st.job_files ++ draftFileRows jobId fileMeta uuids
      job_recipients := st.job_recipients ++ draftRecipientRows jobId recipients }

/-- The whole create-draft handler (success path): the `jobs` insert, then
the batch for `job_files` and `job_recipients`. Returns the response
(`{ jobId }`) and the final state. -/
def createDraft (st : DBState) (userEmail : String) (security : SecurityOptions)
    (recipients : List Recipient) (fileMeta : List DraftFileMetaItem)
    (jobId : String) (uuids : List String) : String × DBState :=
  (jobId,
   createDraftBatch (createDraftJobInsert st jobId userEmail security fileMeta.length)
     jobId fileMeta uuids recipients)

/-- The store states observable by an interleaved reader during a
create-draft call: before any write, between the `jobs` insert and the
batch, and after the batch. -/
def createDraftTrace (st : DBState) (userEmail : String)
    (security : SecurityOptions) (recipients : List Recipient)
    (fileMeta : List DraftFileMetaItem) (jobId : String)
    (uuids : List String) : List DBState :=
  [st,
   createDraftJobInsert st jobId userEmail security fileMeta.length,
   (createDraft st userEmail security recipients fileMeta jobId uuids).2]

/-- A value of the multipart `file` form field: either a plain string or a
binary `File` part (bytes modelled as `List Nat`). `formData.get` returning
`null` is modelled by `Option`. -/
inductive FormEntry where
  | str (s : String)
  | file (content : List Nat)
deriving DecidableEq, Repr

/-- Outcome of the upload-file handler: the 200 body, an `HTTPException`
with status code and message, or the infrastructure failure raised when the
R2 `put` promise rejects. -/
inductive UploadResult where
  | ok (fileIndex uploadedFiles totalFiles : Nat)
  | err (status : Nat) (message : String)
  | storeFailure
deriving DecidableEq, Repr

/-- The guarded ownership lookup of the upload-file handler:
`SELECT jf.storage_key, jf.upload_status FROM job_files jf INNER JOIN jobs j
ON j.id = jf.job_id WHERE jf.job_id = ? AND jf.file_index = ? AND
j.user_email = ? AND j.status = 'draft'`, taking the first row. -/
def findFileRow (st : DBState) (jobId : String) (fileIndex : Nat)
    (userEmail : String) : Option JobFileRow :=
  st.job_files.find? fun f =>
    f.job_id == jobId && f.file_index == fileIndex &&
      st.jobs.any (fun j =>
        j.id == f.job_id && j.user_email == userEmail && j.status == "draft")

/-- Predicate of the conditional update
`UPDATE job_files SET upload_status = 'uploaded' WHERE job_id = ? AND
file_index = ? AND upload_status = 'pending'`. -/
def pendingAt (jobId : String) (fileIndex : Nat) (f : JobFileRow) : Bool :=
  f.job_id == jobId && f.file_index == fileIndex && f.upload_status == "pending"

/-- Row-level effect of the conditional `job_files` update (SET clause
applied to rows matched by `pendingAt`). -/
def updRow (jobId : String) (fileIndex : Nat) (f : JobFileRow) : JobFileRow :=
  if pendingAt jobId fileIndex f then { f with upload_status := "uploaded" } else f

/-- Row-level effect of
`UPDATE jobs SET uploaded_files = uploaded_files + 1 WHERE id = ?`. -/
def incRow (jobId : String) (j : JobRow) : JobRow :=
  if j.id == jobId then { j with uploaded_files := j.uploaded_files + 1 } else j

/-- Row-level effect of `UPDATE jobs SET status = ? WHERE id = ?`. -/
def setStatusRow (jobId newStatus : String) (j : JobRow) : JobRow :=
  if j.id == jobId then { j with status := newStatus } else j

/-- Store writes of the upload-file success path: the R2 `put` under the
pre-assigned key, the conditional `job_files` update, and the counter
increment guarded on `updateResult.meta.changes > 0`. -/
def applyUploadWrites (st : DBState) (jobId : String) (fileIndex : Nat)
    (key : String) (content : List Nat) : DBState :=
  let st1 : DBState := { st with blobs := putBlob key content st.blobs }
  let changes := st1.job_files.countP (pendingAt jobId fileIndex)
  let st2 : DBState :=
    { st1 with job_files := st1.job_files.map (updRow jobId fileIndex) }
  if changes > 0 then { st2 with jobs := st2.jobs.map (incRow jobId) } else st2

/-- The upload-file handler (`PUT /jobs/{jobId}/files/{fileIndex}`).
`formFile` is `formData.get('file')`; `blobOk` is whether the R2 `put`
promise resolves. Returns the outcome and the resulting store state. -/
def uploadFile (st : DBState) (userEmail jobId : String) (fileIndex : Nat)
    (formFile : Option FormEntry) (blobOk : Bool) : UploadResult × DBState :=
  match findFileRow st jobId fileIndex userEmail with
  | none => (.err 404 "File not found or job is not in draft state.", st)
  | some fileRow =>
    match formFile with
    | none => (.err 400 "Missing \"file\" field.", st)
    | some (.str _) => (.err 400 "Missing \"file\" field.", st)
    | some (.file content) =>
      if !blobOk then (.storeFailure, st)
      else
        let st3 := applyUploadWrites st jobId fileIndex fileRow.storage_key content
        match st3.jobs.find? (fun j => j.id == jobId) with
        | none => (.err 500 "Failed to retrieve job state.", st3)
        | some jobRow =>
          (.ok fileIndex jobRow.uploaded_files jobRow.total_files, st3)

/-- Owner-filtered job lookup shared by the submit, status and complete
handlers: `SELECT ... FROM jobs WHERE id = ? AND user_email = ?`, first row. -/
def findJob (st : DBState) (jobId userEmail : String) : Option JobRow :=
  st.jobs.find? fun j => j.id == jobId && j.user_email == userEmail

/-- Outcome of the submit and complete handlers. -/
inductive SubmitResult where
  | ok (jobId : String)
  | err (status : Nat) (message : String)
deriving DecidableEq, Repr

/-- The submit handler (`POST /jobs/{jobId}/submit`): not-found on missing
job or owner mismatch, 400 if not draft, 400 if incomplete, else flips the
status to `pending`. -/
def submitJob (st : DBState) (userEmail jobId : String) : SubmitResult × DBState :=
  match findJob st jobId userEmail with
  | none => (.err 404 "Job not found.", st)
  | some jobRow =>
    if !(jobRow.status == "draft") then (.err 400 "Already submitted.", st)
    else if jobRow.uploaded_files < jobRow.total_files then
      (.err 400 "Not all files have been uploaded yet.", st)
    else
      (.ok jobId, { st with jobs := st.jobs.map (setStatusRow jobId "pending") })

/-- 200 body of the get-status handler. -/
structure JobStatusResponse where
  jobId : String
  status : String
  totalFiles : Nat
  uploadedFiles : Nat
  pendingIndices : List Nat
deriving DecidableEq, Repr

/-- The get-status handler (`GET /jobs/{jobId}/status`): `none` is the 404
outcome; read-only. `pendingIndices` comes from
`SELECT file_index FROM job_files WHERE job_id = ? AND upload_status =
'pending'` in rowid order. -/
def getJobStatus (st : DBState) (userEmail jobId : String) :
    Option JobStatusResponse :=
  match findJob st jobId userEmail with
  | none => none
  | some jobRow =>
    some { jobId := jobId
           status := jobRow.status
           totalFiles := jobRow.total_files
           uploadedFiles := jobRow.uploaded_files
           pendingIndices :=
             (st.job_files.filter fun f =>
               f.job_id == jobId && f.upload_status == "pending").map
               (·.file_index) }

/-- The temporary complete handler (`POST /jobs/{jobId}/complete`):
requires current status `pending`, sets it to `completed`. -/
def completeJob (st : DBState) (userEmail jobId : String) :
    SubmitResult × DBState :=
  match findJob st jobId userEmail with
  | none => (.err 404 "Job not found.", st)
  | some jobRow =>
    if !(jobRow.status == "pending") then
      (.err 400 "Job is not in pending state.", st)
    else
      (.ok jobId, { st with jobs := st.jobs.map (setStatusRow jobId "completed") })

/-- Arguments of one upload-file call (for sequences of calls). -/
structure UploadCall where
  userEmail : String
  jobId : String
  fileIndex : Nat
  formFile : Option FormEntry
  blobOk : Bool
deriving DecidableEq, Repr

/-- The store state after a sequence of upload-file calls. -/
def applyUploads (st : DBState) (calls : List UploadCall) : DBState :=
  calls.foldl
    (fun s c => (uploadFile s c.userEmail c.jobId c.fileIndex c.formFile c.blobOk).2)
    st

/-- Number of `job_files` rows of a job whose upload status is `uploaded`. -/
def uploadedCount (st : DBState) (jobId : String) : Nat :=
  st.job_files.countP fun f => f.job_id == jobId && f.upload_status == "uploaded"

/-- Number of `job_files` rows registered for a job. -/
def fileCount (st : DBState) (jobId : String) : Nat :=
  st.job_files.countP fun f => f.job_id == jobId

/-- Well-formedness invariant of the store, established by the create-draft
handler and preserved by every route: job ids are unique; per job the file
rows appear in strictly increasing `file_index` order (hence (job, index)
is a key); every upload status is `pending` or `uploaded`; and each job's
`uploaded_files` and `total_files` counters agree with its `job_files` rows. -/
def Inv (st : DBState) : Prop :=
  st.jobs.Pairwise (fun a b => a.id ≠ b.id) ∧
  st.job_files.Pairwise (fun a b => a.job_id = b.job_id → a.file_index < b.file_index) ∧
  (∀ f ∈ st.job_files, f.upload_status = "pending" ∨ f.upload_status = "uploaded") ∧
  (∀ j ∈ st.jobs, j.uploaded_files = uploadedCount st j.id ∧
    j.total_files = fileCount st j.id)

instance : DecidablePred Inv := fun st => by
  unfold Inv
  infer_instance

/-- All-or-nothing visibility over a list of reader-observable states: in
every state, if the Job row is visible then all `nFiles` JobFile rows and
all `nRecips` Recipient rows of that job are visible too. -/
def atomicToReaders (states : List DBState) (jobId : String)
    (nFiles nRecips : Nat) : Bool :=
  states.all fun s =>
    !(s.jobs.any (fun j => j.id == jobId)) ||
    (((s.job_files.filter (fun f => f.job_id == jobId)).length == nFiles) &&
     ((s.job_recipients.filter (fun r => r.job_id == jobId)).length == nRecips))

/-! ### Concrete fixtures for the closed-form corollaries -/

def wSecurity : SecurityOptions := ⟨"WM", true, false, false, false, false⟩

def wRecipients : List Recipient := [⟨"r@example.com", "direct"⟩]

def wFileMeta : List DraftFileMetaItem :=
  [⟨"docs", "a.png", 10⟩, ⟨"docs", "b.png", 20⟩, ⟨"docs", "c.png", 30⟩]

/-- A three-file draft job as registered by the create-draft handler. -/
def wDraftState : DBState :=
  (createDraft dbEmpty "alice@example.com" wSecurity wRecipients wFileMeta
    "job-1" ["u0", "u1", "u2"]).2

/-- An upload sequence with a duplicate index and out-of-order indices. -/
def wCalls : List UploadCall :=
  [⟨"alice@example.com", "job-1", 1, some (.file [1, 2]), true⟩,
   ⟨"alice@example.com", "job-1", 1, some (.file [3]), true⟩,
   ⟨"alice@example.com", "job-1", 2, some (.file [4]), true⟩,
   ⟨"alice@example.com", "job-1", 0, some (.file [5]), true⟩]

def wJobDraft : JobRow :=
  ⟨"job-4", "alice@example.com", "WM", 1, 0, 0, 0, 0, "draft", 2, 1⟩

def wFileUploaded : JobFileRow :=
  ⟨"job-4", "a.png", "docs", "k0", 10, "uploaded", 0⟩

def wFilePending : JobFileRow :=
  ⟨"job-4", "b.png", "docs", "k1", 20, "pending", 1⟩

/-- A two-file draft job with one file uploaded and one still pending. -/
def wSubmitState : DBState :=
  ⟨[wJobDraft], [wFileUploaded, wFilePending],
   [⟨"job-4", "r@example.com", "direct"⟩], [("k0", [7])]⟩

def wJobPending : JobRow :=
  ⟨"job-9", "alice@example.com", "WM", 1, 0, 0, 0, 0, "pending", 1, 1⟩

/-- A fully uploaded, already submitted job. -/
def wPendingState : DBState :=
  ⟨[wJobPending], [⟨"job-9", "a.png", "docs", "k9", 10, "uploaded", 0⟩],
   [⟨"job-9", "r@example.com", "direct"⟩], [("k9", [1])]⟩

/-- A one-file draft job as created by the handler. -/
def cexBase : DBState :=
  (createDraft dbEmpty "alice@example.com" wSecurity wRecipients
    [⟨"docs", "a.png", 10⟩] "job-2" ["u0"]).2

/-- The same job after its single file was uploaded once (still draft). -/
def cexState : DBState :=
  (uploadFile cexBase "alice@example.com" "job-2" 0 (some (.file [9])) true).2

def cexCall1 : UploadResult × DBState :=
  uploadFile cexState "alice@example.com" "job-2" 0 (some (.file [1])) true

def cexCall2 : UploadResult × DBState :=
  uploadFile cexCall1.2 "alice@example.com" "job-2" 0 (some (.file [2])) true

/-! ### Small facts about the row updaters -/

@[simp] lemma updRow_job_id (J : String) (i : Nat) (f : JobFileRow) :
    (updRow J i f).job_id = f.job_id := by
  unfold updRow; split <;> rfl

@[simp] lemma updRow_file_index (J : String) (i : Nat) (f : JobFileRow) :
    (updRow J i f).file_index = f.file_index := by
  unfold updRow; split <;> rfl

@[simp] lemma updRow_storage_key (J : String) (i : Nat) (f : JobFileRow) :
    (updRow J i f).storage_key = f.storage_key := by
  unfold updRow; split <;> rfl

@[simp] lemma incRow_id (J : String) (j : JobRow) : (incRow J j).id = j.id := by
  unfold incRow; split <;> rfl

@[simp] lemma incRow_user_email (J : String) (j : JobRow) :
    (incRow J j).user_email = j.user_email := by
  unfold incRow; split <;> rfl

@[simp] lemma incRow_status (J : String) (j : JobRow) :
    (incRow J j).status = j.status := by
  unfold incRow; split <;> rfl

@[simp] lemma incRow_total_files (J : String) (j : JobRow) :
    (incRow J j).total_files = j.total_files := by
  unfold incRow; split <;> rfl

@[simp] lemma setStatusRow_id (J s : String) (j : JobRow) :
    (setStatusRow J s j).id = j.id := by
  unfold setStatusRow; split <;> rfl

/-! ### Generic list facts -/

/-- `find?` returns `x` when `x` satisfies the predicate and every
satisfying member of the list equals `x`. -/
lemma find?_eq_some_of_unique {α : Type} {l : List α} {p : α → Bool} {x : α}
    (hx : x ∈ l) (hpx : p x = true) (huniq : ∀ a ∈ l, p a = true → a = x) :
    l.find? p = some x := by
  induction l with
  | nil => cases hx
  | cons a l ih =>
    by_cases hpa : p a = true
    · rw [List.find?_cons_of_pos _ hpa, huniq a (List.mem_cons_self a l) hpa]
    · rcases List.mem_cons.mp hx with rfl | hx2
      · exact absurd hpx hpa
      · rw [List.find?_cons_of_neg _ hpa]
        exact ih hx2 (fun b hb => huniq b (List.mem_cons_of_mem _ hb))

/-- In a list of jobs with pairwise distinct ids, two members with the same
id coincide. -/
lemma jobId_unique {l : List JobRow} (hpw : l.Pairwise fun a b => a.id ≠ b.id)
    {g f : JobRow} (hg : g ∈ l) (hf : f ∈ l) (hid : g.id = f.id) : g = f := by
  by_contra hne
  exact (hpw.forall (fun a b h => fun e => h e.symm) hg hf hne) hid

/-- In a file list ordered strictly by index within each job, two members
with the same (job, index) key coincide. -/
lemma fileKey_unique {l : List JobFileRow}
    (hpw : l.Pairwise fun a b => a.job_id = b.job_id → a.file_index < b.file_index)
    {g f : JobFileRow} (hg : g ∈ l) (hf : f ∈ l)
    (hid : g.job_id = f.job_id) (hix : g.file_index = f.file_index) : g = f := by
  by_contra hne
  have hpw2 : l.Pairwise fun a b : JobFileRow =>
      (a.job_id = b.job_id → a.file_index < b.file_index) ∨
      (b.job_id = a.job_id → b.file_index < a.file_index) :=
    hpw.imp Or.inl
  have hsym : Symmetric fun a b : JobFileRow =>
      (a.job_id = b.job_id → a.file_index < b.file_index) ∨
      (b.job_id = a.job_id → b.file_index < a.file_index) := fun a b h => h.symm
  rcases hpw2.forall hsym hg hf hne with h | h
  · exact absurd (h hid) (by omega)
  · exact absurd (h hid.symm) (by omega)

/-- At most one file row matches the conditional update's predicate when the
(job, index) keys are pairwise distinct. -/
lemma countP_pendingAt_le_one (l : List JobFileRow) (J : String) (i : Nat)
    (hpw : l.Pairwise fun a b => a.job_id = b.job_id → a.file_index < b.file_index) :
    l.countP (pendingAt J i) ≤ 1 := by
  induction l with
  | nil => simp
  | cons a l ih =>
    rcases List.pairwise_cons.mp hpw with ⟨ha, hl⟩
    by_cases hp : pendingAt J i a = true
    · have hz : l.countP (pendingAt J i) = 0 := by
        rw [List.countP_eq_zero]
        intro b hb hpb
        simp only [pendingAt, Bool.and_eq_true, beq_iff_eq] at hp hpb
        have := ha b hb (by rw [hp.1.1, hpb.1.1])
        omega
      rw [List.countP_cons_of_pos _ _ hp, hz]
    · rw [List.countP_cons_of_neg _ _ hp]
      exact ih hl

/-- Effect of the conditional update on the per-job uploaded count: the
count for `target` grows by the number of matched rows when `target` is the
updated job, and is unchanged otherwise. -/
lemma countP_uploaded_map_updRow (l : List JobFileRow) (J target : String) (i : Nat) :
    (l.map (updRow J i)).countP
        (fun f => f.job_id == target && f.upload_status == "uploaded") =
      l.countP (fun f => f.job_id == target && f.upload_status == "uploaded") +
        (if target = J then l.countP (pendingAt J i) else 0) := by
  induction l with
  | nil => simp
  | cons a l ih =>
    simp only [List.map_cons, List.countP_cons, ih]
    by_cases hp : pendingAt J i a = true
    · have hkey : a.job_id = J ∧ a.file_index = i ∧ a.upload_status = "pending" := by
        simpa only [pendingAt, Bool.and_eq_true, beq_iff_eq, and_assoc] using hp
      have hup : updRow J i a = { a with upload_status := "uploaded" } := by
        unfold updRow; rw [if_pos hp]
      by_cases ht : target = J
      · subst ht
        simp [hup, hkey.1, hkey.2.2, hp]
        omega
      · simp [hup, hkey.1, hkey.2.2, hp, ht, Ne.symm ht]
    · have hup : updRow J i a = a := by unfold updRow; rw [if_neg hp]
      simp only [hup, hp, if_false]
      by_cases ht : target = J
      · simp [ht]
        omega
      · simp [ht]

/-- The conditional update does not change how many rows each job has. -/
lemma countP_job_map_updRow (l : List JobFileRow) (J target : String) (i : Nat) :
    (l.map (updRow J i)).countP (fun f => f.job_id == target) =
      l.countP (fun f => f.job_id == target) := by
  rw [List.countP_map]
  exact List.countP_congr (fun f _ => by simp [Function.comp])

/-- After the conditional update, no row still matches its predicate. -/
lemma countP_pendingAt_map_updRow (l : List JobFileRow) (J : String) (i : Nat) :
    (l.map (updRow J i)).countP (pendingAt J i) = 0 := by
  rw [List.countP_eq_zero]
  intro g hg hpg
  rcases List.mem_map.mp hg with ⟨f, _, rfl⟩
  by_cases hp : pendingAt J i f = true
  · have : (updRow J i f).upload_status = "uploaded" := by
      unfold updRow; rw [if_pos hp]
    simp only [pendingAt, Bool.and_eq_true, beq_iff_eq] at hpg
    rw [this] at hpg
    exact absurd hpg.2 (by decide)
  · have : updRow J i f = f := by unfold updRow; rw [if_neg hp]
    rw [this] at hpg
    exact hp hpg

/-- Per job, pending rows and uploaded rows partition the registered rows
when every upload status is one of the two. -/
lemma countP_pending_add_uploaded (l : List JobFileRow) (J : String)
    (hst : ∀ f ∈ l, f.upload_status = "pending" ∨ f.upload_status = "uploaded") :
    l.countP (fun f => f.job_id == J && f.upload_status == "pending") +
      l.countP (fun f => f.job_id == J && f.upload_status == "uploaded") =
      l.countP (fun f => f.job_id == J) := by
  induction l with
  | nil => simp
  | cons a l ih =>
    have ha := hst a (List.mem_cons_self a l)
    have ihl := ih (fun f hf => hst f (List.mem_cons_of_mem _ hf))
    by_cases hj : a.job_id = J
    · rcases ha with hs | hs <;> simp [List.countP_cons, hj, hs, ← ihl] <;> omega
    · simp only [List.countP_cons, ← ihl]
      have h1 : (a.job_id == J && a.upload_status == "pending") = false := by
        simp [hj]
      have h2 : (a.job_id == J && a.upload_status == "uploaded") = false := by
        simp [hj]
      have h3 : (a.job_id == J) = false := by simp [hj]
      simp [h1, h2, h3]

/-! ### Invariant preservation by the upload-file handler -/

/-- Closed form of the upload success path's writes. -/
lemma applyUploadWrites_eq (st : DBState) (J : String) (i : Nat) (key : String)
    (content : List Nat) :
    applyUploadWrites st J i key content =
      if 0 < st.job_files.countP (pendingAt J i) then
        ⟨st.jobs.map (incRow J), st.job_files.map (updRow J i),
         st.job_recipients, putBlob key content st.blobs⟩
      else
        ⟨st.jobs, st.job_files.map (updRow J i),
         st.job_recipients, putBlob key content st.blobs⟩ := by
  simp only [applyUploadWrites]

lemma applyUploadWrites_inv (st : DBState) (J : String) (i : Nat) (key : String)
    (content : List Nat) (h : Inv st) :
    Inv (applyUploadWrites st J i key content) := by
  obtain ⟨h1, h2, h3, h4⟩ := h
  rw [applyUploadWrites_eq]
  have hfiles : ∀ f ∈ st.job_files.map (updRow J i),
      f.upload_status = "pending" ∨ f.upload_status = "uploaded" := by
    intro f hf
    rcases List.mem_map.mp hf with ⟨g, hg, rfl⟩
    by_cases hp : pendingAt J i g = true
    · right; unfold updRow; rw [if_pos hp]
    · have hgg : updRow J i g = g := by unfold updRow; rw [if_neg hp]
      rw [hgg]; exact h3 g hg
  have hpwf : (st.job_files.map (updRow J i)).Pairwise
      fun a b => a.job_id = b.job_id → a.file_index < b.file_index := by
    rw [List.pairwise_map]
    exact h2.imp (fun hab => by simpa using hab)
  by_cases hc : 0 < st.job_files.countP (pendingAt J i)
  · rw [if_pos hc]
    have hc1 : st.job_files.countP (pendingAt J i) = 1 :=
      le_antisymm (countP_pendingAt_le_one _ _ _ h2) hc
    refine ⟨?_, hpwf, hfiles, ?_⟩
    · rw [List.pairwise_map]
      exact h1.imp (fun hab => by simpa using hab)
    · intro j' hj'
      rcases List.mem_map.mp hj' with ⟨j, hj, rfl⟩
      have hcnt := h4 j hj
      constructor
      · show (incRow J j).uploaded_files =
          (st.job_files.map (updRow J i)).countP
            (fun f => f.job_id == (incRow J j).id && f.upload_status == "uploaded")
        rw [incRow_id, countP_uploaded_map_updRow]
        by_cases hid : j.id = J
        · rw [if_pos hid, hc1]
          unfold incRow
          rw [if_pos (by simp [hid])]
          have : j.uploaded_files = uploadedCount st j.id := hcnt.1
          unfold uploadedCount at this
          dsimp only
          omega
        · rw [if_neg hid]
          unfold incRow
          rw [if_neg (by simp [hid])]
          have : j.uploaded_files = uploadedCount st j.id := hcnt.1
          unfold uploadedCount at this
          omega
      · show (incRow J j).total_files =
          (st.job_files.map (updRow J i)).countP
            (fun f => f.job_id == (incRow J j).id)
        rw [incRow_id, incRow_total_files, countP_job_map_updRow]
        have : j.total_files = fileCount st j.id := hcnt.2
        unfold fileCount at this
        omega
  · rw [if_neg hc]
    have hc0 : st.job_files.countP (pendingAt J i) = 0 := by omega
    refine ⟨h1, hpwf, hfiles, ?_⟩
    intro j hj
    have hcnt := h4 j hj
    constructor
    · show j.uploaded_files =
        (st.job_files.map (updRow J i)).countP
          (fun f => f.job_id == j.id && f.upload_status == "uploaded")
      rw [countP_uploaded_map_updRow]
      have : j.uploaded_files = uploadedCount st j.id := hcnt.1
      unfold uploadedCount at this
      by_cases hid : j.id = J
      · rw [if_pos hid, hc0]; omega
      · rw [if_neg hid]; omega
    · show j.total_files =
        (st.job_files.map (updRow J i)).countP (fun f => f.job_id == j.id)
      rw [countP_job_map_updRow]
      have : j.total_files = fileCount st j.id := hcnt.2
      unfold fileCount at this
      omega

/-- The state after an upload-file call is either unchanged (any failure
path) or the result of the success path's writes. -/
lemma uploadFile_snd_eq (st : DBState) (u J : String) (i : Nat)
    (body : Option FormEntry) (b : Bool) :
    (uploadFile st u J i body b).2 = st ∨
    ∃ fr content, findFileRow st J i u = some fr ∧
      body = some (.file content) ∧ b = true ∧
      (uploadFile st u J i body b).2 =
        applyUploadWrites st J i fr.storage_key content := by
  unfold uploadFile
  cases hfr : findFileRow st J i u with
  | none => exact Or.inl rfl
  | some fr =>
    match body with
    | none => exact Or.inl rfl
    | some (.str s) => exact Or.inl rfl
    | some (.file content) =>
      cases b with
      | false => exact Or.inl rfl
      | true =>
        refine Or.inr ⟨fr, content, rfl, rfl, rfl, ?_⟩
        simp only [Bool.not_true, Bool.false_eq_true, if_false]
        cases hfind : (applyUploadWrites st J i fr.storage_key content).jobs.find?
            (fun j => j.id == J) <;> simp [hfind]

lemma uploadFile_inv (st : DBState) (u J : String) (i : Nat)
    (body : Option FormEntry) (b : Bool) (h : Inv st) :
    Inv (uploadFile st u J i body b).2 := by
  rcases uploadFile_snd_eq st u J i body b with heq | ⟨fr, content, _, _, _, heq⟩
  · rw [heq]; exact h
  · rw [heq]; exact applyUploadWrites_inv _ _ _ _ _ h

lemma applyUploads_inv (st : DBState) (calls : List UploadCall) (h : Inv st) :
    Inv (applyUploads st calls) := by
  induction calls generalizing st with
  | nil => exact h
  | cons c cs ih =>
    exact ih _ (uploadFile_inv st c.userEmail c.jobId c.fileIndex c.formFile c.blobOk h)

/-! ### Lookup resolution under the invariant -/

lemma findJob_eq_some (st : DBState) (u : String) {jr : JobRow}
    (h1 : st.jobs.Pairwise fun a b => a.id ≠ b.id)
    (hj : jr ∈ st.jobs) (hu : jr.user_email = u) :
    findJob st jr.id u = some jr := by
  apply find?_eq_some_of_unique hj
  · simp [hu]
  · intro a ha hpa
    simp only [Bool.and_eq_true, beq_iff_eq] at hpa
    exact jobId_unique h1 ha hj hpa.1

lemma findJob_eq_none_of_owner (st : DBState) (u : String) {jr : JobRow}
    (h1 : st.jobs.Pairwise fun a b => a.id ≠ b.id)
    (hj : jr ∈ st.jobs) (hu : u ≠ jr.user_email) :
    findJob st jr.id u = none := by
  rw [findJob, List.find?_eq_none]
  intro a ha hpa
  simp only [Bool.and_eq_true, beq_iff_eq] at hpa
  have hape : a = jr := jobId_unique h1 ha hj hpa.1
  exact hu (by rw [← hpa.2, hape])

lemma findJob_eq_none_of_absent (st : DBState) (u gid : String)
    (hg : ∀ j ∈ st.jobs, j.id ≠ gid) : findJob st gid u = none := by
  rw [findJob, List.find?_eq_none]
  intro a ha hpa
  simp only [Bool.and_eq_true, beq_iff_eq] at hpa
  exact hg a ha hpa.1

lemma findFileRow_eq_some (st : DBState) (u : String) {jr : JobRow}
    {fr : JobFileRow}
    (h2 : st.job_files.Pairwise
      fun a b => a.job_id = b.job_id → a.file_index < b.file_index)
    (hj : jr ∈ st.jobs) (hf : fr ∈ st.job_files) (hjid : jr.id = fr.job_id)
    (hu : jr.user_email = u) (hs : jr.status = "draft") :
    findFileRow st fr.job_id fr.file_index u = some fr := by
  apply find?_eq_some_of_unique hf
  · have hany : st.jobs.any (fun j =>
        j.id == fr.job_id && j.user_email == u && j.status == "draft") = true := by
      rw [List.any_eq_true]
      exact ⟨jr, hj, by simp [hjid, hu, hs]⟩
    simp [hany]
  · intro g hg hpg
    simp only [Bool.and_eq_true, beq_iff_eq] at hpg
    exact fileKey_unique h2 hg hf hpg.1.1 hpg.1.2

lemma findFileRow_eq_none_of_not_draft (st : DBState) (u J : String) (i : Nat)
    (h1 : st.jobs.Pairwise fun a b => a.id ≠ b.id) {jr : JobRow}
    (hj : jr ∈ st.jobs) (hid : jr.id = J) (hs : jr.status ≠ "draft") :
    findFileRow st J i u = none := by
  rw [findFileRow, List.find?_eq_none]
  intro f hf hpf
  simp only [Bool.and_eq_true, beq_iff_eq, List.any_eq_true] at hpf
  obtain ⟨⟨hfj, _⟩, j2, hj2, ⟨hj2id, _⟩, hj2s⟩ := hpf
  have hje : j2 = jr := jobId_unique h1 hj2 hj (by rw [hj2id, hfj, hid])
  exact hs (hje ▸ hj2s)

lemma findFileRow_eq_none_of_owner (st : DBState) (u J : String) (i : Nat)
    (h1 : st.jobs.Pairwise fun a b => a.id ≠ b.id) {jr : JobRow}
    (hj : jr ∈ st.jobs) (hid : jr.id = J) (hu : u ≠ jr.user_email) :
    findFileRow st J i u = none := by
  rw [findFileRow, List.find?_eq_none]
  intro f hf hpf
  simp only [Bool.and_eq_true, beq_iff_eq, List.any_eq_true] at hpf
  obtain ⟨⟨hfj, _⟩, j2, hj2, ⟨hj2id, hj2u⟩, _⟩ := hpf
  have hje : j2 = jr := jobId_unique h1 hj2 hj (by rw [hj2id, hfj, hid])
  exact hu (by rw [← hj2u, hje])

lemma findFileRow_eq_none_of_absent (st : DBState) (u gid : String) (i : Nat)
    (hg : ∀ f ∈ st.job_files, f.job_id ≠ gid) :
    findFileRow st gid i u = none := by
  rw [findFileRow, List.find?_eq_none]
  intro f hf hpf
  simp only [Bool.and_eq_true, beq_iff_eq, List.any_eq_true] at hpf
  exact hg f hf hpf.1.1

/-! ### Claim theorems -/

/-- C6: for every job whose status is `pending` or `completed`, every
upload-file call on that job fails with the 404 not-found error and leaves
the whole store (blobs, `job_files`, counters) unchanged, regardless of the
calling owner or the file index. -/
theorem upload_rejected_after_submit (st : DBState) (u J : String) (i : Nat)
    (body : Option FormEntry) (b : Bool) (jr : JobRow) (h : Inv st)
    (hj : jr ∈ st.jobs) (hid : jr.id = J)
    (hs : jr.status = "pending" ∨ jr.status = "completed") :
    uploadFile st u J i body b =
      (.err 404 "File not found or job is not in draft state.", st) := by
  have hnone : findFileRow st J i u = none := by
    refine findFileRow_eq_none_of_not_draft st u J i h.1 hj hid ?_
    rcases hs with hs | hs <;> rw [hs] <;> decide
  unfold uploadFile
  rw [hnone]

/-- C8: if the blob-store put fails, the upload-file call leaves the store
completely unchanged — the JobFile stays `pending`, no counter is
incremented, and no blob is written; the counter update can only ever run
after a successful put in the same call. -/
theorem no_increment_on_blob_failure (st : DBState) (u J : String) (i : Nat)
    (body : Option FormEntry) :
    (uploadFile st u J i body false).2 = st := by
  unfold uploadFile
  cases findFileRow st J i u with
  | none => rfl
  | some fr =>
    match body with
    | none => rfl
    | some (.str s) => rfl
    | some (.file content) => rfl

/-- C10: the final re-read of the job row in upload-file can never fail:
whenever the guarded initial lookup succeeded, a `jobs` row with the
requested id still exists, so the 500 internal-error branch is unreachable
on every input. -/
theorem reread_cannot_fail (st : DBState) (u J : String) (i : Nat)
    (body : Option FormEntry) (b : Bool) :
    (uploadFile st u J i body b).1 ≠ .err 500 "Failed to retrieve job state." := by
  unfold uploadFile
  cases hfr : findFileRow st J i u with
  | none => simp
  | some fr =>
    match body with
    | none => simp
    | some (.str s) => simp
    | some (.file content) =>
      cases b with
      | false => simp
      | true =>
        simp only [Bool.not_true, Bool.false_eq_true, if_false]
        unfold findFileRow at hfr
        have hp := List.find?_some hfr
        simp only [Bool.and_eq_true, beq_iff_eq, List.any_eq_true] at hp
        obtain ⟨⟨hfj, _⟩, j2, hj2, ⟨hj2id, _⟩, _⟩ := hp
        have hex : ∃ j ∈ (applyUploadWrites st J i fr.storage_key content).jobs,
            j.id = J := by
          rw [applyUploadWrites_eq]
          split
          · exact ⟨incRow J j2, List.mem_map_of_mem _ hj2,
              by rw [incRow_id, hj2id, hfj]⟩
          · exact ⟨j2, hj2, by rw [hj2id, hfj]⟩
        obtain ⟨j3, hj3, hj3id⟩ := hex
        cases hfind : (applyUploadWrites st J i fr.storage_key content).jobs.find?
            (fun j => j.id == J) with
        | none =>
          exact absurd (by simp [hj3id]) (List.find?_eq_none.mp hfind j3 hj3)
        | some jrow => simp [hfind]

/-- C7: upload-file, get-status and submit behave identically on a job
owned by a different principal and on a wholly absent job id: each returns
the same not-found outcome and leaves the store unchanged, so the response
does not reveal whether the job exists. -/
theorem ownership_not_found_uniform (st : DBState) (u gid : String) (i : Nat)
    (body : Option FormEntry) (b : Bool) (jr : JobRow) (h : Inv st)
    (hj : jr ∈ st.jobs) (hu : u ≠ jr.user_email)
    (hg1 : ∀ j ∈ st.jobs, j.id ≠ gid)
    (hg2 : ∀ f ∈ st.job_files, f.job_id ≠ gid) :
    uploadFile st u jr.id i body b =
        (.err 404 "File not found or job is not in draft state.", st) ∧
    uploadFile st u gid i body b =
        (.err 404 "File not found or job is not in draft state.", st) ∧
    getJobStatus st u jr.id = none ∧
    getJobStatus st u gid = none ∧
    submitJob st u jr.id = (.err 404 "Job not found.", st) ∧
    submitJob st u gid = (.err 404 "Job not found.", st) := by
  have hf1 := findFileRow_eq_none_of_owner st u jr.id i h.1 hj rfl hu
  have hf2 := findFileRow_eq_none_of_absent st u gid i hg2
  have hn1 := findJob_eq_none_of_owner st u h.1 hj hu
  have hn2 := findJob_eq_none_of_absent st u gid hg1
  refine ⟨?_, ?_, ?_, ?_, ?_, ?_⟩
  · unfold uploadFile; rw [hf1]
  · unfold uploadFile; rw [hf2]
  · unfold getJobStatus; rw [hn1]
  · unfold getJobStatus; rw [hn2]
  · unfold submitJob; rw [hn1]
  · unfold submitJob; rw [hn2]

/-- C9: when the multipart body's `file` field is absent or a plain string,
the upload-file call on an existing, owned, draft job's registered index
fails with the 400 validation error and changes no state at all. -/
theorem missing_file_field_rejected (st : DBState) (u : String) (jr : JobRow)
    (fr : JobFileRow) (body : Option FormEntry) (b : Bool) (h : Inv st)
    (hj : jr ∈ st.jobs) (hf : fr ∈ st.job_files) (hjid : jr.id = fr.job_id)
    (hu : jr.user_email = u) (hs : jr.status = "draft")
    (hbody : body = none ∨ ∃ s, body = some (.str s)) :
    uploadFile st u fr.job_id fr.file_index body b =
      (.err 400 "Missing \"file\" field.", st) := by
  have hfr := findFileRow_eq_some st u h.2.1 hj hf hjid hu hs
  unfold uploadFile
  rw [hfr]
  rcases hbody with rfl | ⟨s, rfl⟩ <;> rfl

/-- C4: submit on an existing, owned job fails 400 `Already submitted.`
whenever the status is not `draft` (checked before completeness), fails 400
whenever `uploaded_files < total_files`, and succeeds — setting the status
to `pending` — exactly when the status is `draft` and the counters are
equal. -/
theorem submit_gate_correct (st : DBState) (u : String) (jr : JobRow)
    (h : Inv st) (hj : jr ∈ st.jobs) (hu : jr.user_email = u) :
    (jr.status ≠ "draft" →
      submitJob st u jr.id = (.err 400 "Already submitted.", st)) ∧
    (jr.status = "draft" → jr.uploaded_files < jr.total_files →
      submitJob st u jr.id =
        (.err 400 "Not all files have been uploaded yet.", st)) ∧
    (jr.status = "draft" → jr.uploaded_files = jr.total_files →
      submitJob st u jr.id =
        (.ok jr.id, { st with jobs := st.jobs.map (setStatusRow jr.id "pending") })) ∧
    ((submitJob st u jr.id).1 = .ok jr.id ↔
      jr.status = "draft" ∧ jr.uploaded_files = jr.total_files) := by
  have hfind := findJob_eq_some st u h.1 hj hu
  have hle : jr.uploaded_files ≤ jr.total_files := by
    have hc := h.2.2.2 jr hj
    rw [hc.1, hc.2]
    exact List.countP_mono_left (fun f hmem hpf => by
      simp only [Bool.and_eq_true] at hpf; exact hpf.1)
  have himp1 : jr.status ≠ "draft" →
      submitJob st u jr.id = (.err 400 "Already submitted.", st) := by
    intro hs
    unfold submitJob
    rw [hfind]
    dsimp only
    rw [if_pos (by simp [hs])]
  have himp2 : jr.status = "draft" → jr.uploaded_files < jr.total_files →
      submitJob st u jr.id = (.err 400 "Not all files have been uploaded yet.", st) := by
    intro hs hlt
    unfold submitJob
    rw [hfind]
    dsimp only
    rw [if_neg (by simp [hs]), if_pos hlt]
  have himp3 : jr.status = "draft" → jr.uploaded_files = jr.total_files →
      submitJob st u jr.id =
        (.ok jr.id, { st with jobs := st.jobs.map (setStatusRow jr.id "pending") }) := by
    intro hs heq
    unfold submitJob
    rw [hfind]
    dsimp only
    rw [if_neg (by simp [hs]), if_neg (by omega)]
  refine ⟨himp1, himp2, himp3, ?_, ?_⟩
  · intro hok
    by_cases hs : jr.status = "draft"
    · by_cases hlt : jr.uploaded_files < jr.total_files
      · rw [himp2 hs hlt] at hok
        exact absurd hok (by simp)
      · exact ⟨hs, by omega⟩
    · rw [himp1 hs] at hok
      exact absurd hok (by simp)
  · rintro ⟨hs, heq⟩
    rw [himp3 hs heq]

/-- C5: get-status on an existing, owned job returns `pendingIndices` equal
to the strictly increasing list of exactly the file indices whose JobFile
status is `pending`, and its length equals `totalFiles - uploadedFiles`. -/
theorem status_pending_indices_correct (st : DBState) (u : String) (jr : JobRow)
    (h : Inv st) (hj : jr ∈ st.jobs) (hu : jr.user_email = u) :
    ∃ resp, getJobStatus st u jr.id = some resp ∧
      resp.totalFiles = jr.total_files ∧
      resp.uploadedFiles = jr.uploaded_files ∧
      List.Sorted (· < ·) resp.pendingIndices ∧
      (∀ n, n ∈ resp.pendingIndices ↔ ∃ f ∈ st.job_files,
        f.job_id = jr.id ∧ f.upload_status = "pending" ∧ f.file_index = n) ∧
      resp.pendingIndices.length = resp.totalFiles - resp.uploadedFiles := by
  have hfind := findJob_eq_some st u h.1 hj hu
  refine ⟨{ jobId := jr.id, status := jr.status, totalFiles := jr.total_files,
            uploadedFiles := jr.uploaded_files,
            pendingIndices := (st.job_files.filter fun f =>
              f.job_id == jr.id && f.upload_status == "pending").map
              (·.file_index) },
          ?_, rfl, rfl, ?_, ?_, ?_⟩
  · unfold getJobStatus
    rw [hfind]
  · show ((st.job_files.filter fun f =>
      f.job_id == jr.id && f.upload_status == "pending").map
      (·.file_index)).Pairwise (· < ·)
    rw [List.pairwise_map]
    have hfil := h.2.1.filter
      (fun f => f.job_id == jr.id && f.upload_status == "pending")
    refine hfil.imp_of_mem ?_
    intro a b ha hb hr
    have haj : a.job_id = jr.id := by
      have hm := (List.mem_filter.mp ha).2
      simp only [Bool.and_eq_true, beq_iff_eq] at hm
      exact hm.1
    have hbj : b.job_id = jr.id := by
      have hm := (List.mem_filter.mp hb).2
      simp only [Bool.and_eq_true, beq_iff_eq] at hm
      exact hm.1
    exact hr (by rw [haj, hbj])
  · intro n
    constructor
    · intro hn
      rcases List.mem_map.mp hn with ⟨f, hf, rfl⟩
      have hff := List.mem_filter.mp hf
      have hpp := hff.2
      simp only [Bool.and_eq_true, beq_iff_eq] at hpp
      exact ⟨f, hff.1, hpp.1, hpp.2, rfl⟩
    · rintro ⟨f, hf, hfj, hfs, rfl⟩
      exact List.mem_map.mpr
        ⟨f, List.mem_filter.mpr ⟨hf, by simp [hfj, hfs]⟩, rfl⟩
  · rw [List.length_map, ← List.countP_eq_length_filter]
    have hcnt := h.2.2.2 jr hj
    have hpart := countP_pending_add_uploaded st.job_files jr.id h.2.2.1
    have e1 : jr.uploaded_files = uploadedCount st jr.id := hcnt.1
    have e2 : jr.total_files = fileCount st jr.id := hcnt.2
    unfold uploadedCount at e1
    unfold fileCount at e2
    dsimp only
    omega

/-- C1: after any sequence of upload-file calls (duplicate indices and
out-of-order indices included) on any well-formed store, every job's
`uploaded_files` counter equals the number of its `job_files` rows whose
upload status is `uploaded`. -/
theorem uploaded_counter_matches_rows (st : DBState) (calls : List UploadCall)
    (h : Inv st) :
    ∀ j ∈ (applyUploads st calls).jobs,
      j.uploaded_files = uploadedCount (applyUploads st calls) j.id :=
  fun j hj => ((applyUploads_inv st calls h).2.2.2 j hj).1

/-! ### Characterization of successful uploads -/

lemma getBlob_putBlob (key : String) (bytes : List Nat)
    (bs : List (String × List Nat)) :
    getBlob key (putBlob key bytes bs) = some bytes := by
  unfold getBlob putBlob
  rw [List.find?_cons_of_pos _ (by simp)]
  rfl

/-- A successful upload of a still-pending registered index: 200 with the
counter incremented, the file row flipped, the blob written. -/
lemma uploadFile_pending_spec (st : DBState) (u : String) (jr : JobRow)
    (fr : JobFileRow) (content : List Nat) (h : Inv st) (hj : jr ∈ st.jobs)
    (hf : fr ∈ st.job_files) (hjid : jr.id = fr.job_id) (hu : jr.user_email = u)
    (hs : jr.status = "draft") (hpend : fr.upload_status = "pending") :
    uploadFile st u fr.job_id fr.file_index (some (.file content)) true =
      (.ok fr.file_index (jr.uploaded_files + 1) jr.total_files,
       ⟨st.jobs.map (incRow fr.job_id),
        st.job_files.map (updRow fr.job_id fr.file_index),
        st.job_recipients,
        putBlob fr.storage_key content st.blobs⟩) := by
  have hfr := findFileRow_eq_some st u h.2.1 hj hf hjid hu hs
  have hpos : 0 < st.job_files.countP (pendingAt fr.job_id fr.file_index) :=
    List.countP_pos_iff.mpr ⟨fr, hf, by simp [pendingAt, hpend]⟩
  have hwrites :=
    applyUploadWrites_eq st fr.job_id fr.file_index fr.storage_key content
  rw [if_pos hpos] at hwrites
  have hinc : incRow fr.job_id jr = { jr with uploaded_files := jr.uploaded_files + 1 } := by
    unfold incRow
    rw [if_pos (by simp [hjid])]
  have hfind2 : (applyUploadWrites st fr.job_id fr.file_index fr.storage_key
      content).jobs.find? (fun j => j.id == fr.job_id) =
      some (incRow fr.job_id jr) := by
    rw [hwrites]
    apply find?_eq_some_of_unique (List.mem_map_of_mem _ hj)
    · simp [hjid]
    · intro a ha hpa
      rcases List.mem_map.mp ha with ⟨j0, hj0, rfl⟩
      simp only [incRow_id, beq_iff_eq] at hpa
      have hj0e : j0 = jr := jobId_unique h.1 hj0 hj (by rw [hpa, hjid])
      rw [hj0e]
  unfold uploadFile
  rw [hfr]
  simp only [Bool.not_true, Bool.false_eq_true, if_false]
  rw [hfind2, hwrites, hinc]

/-- A successful upload of an already-uploaded registered index: 200, no
counter change and no row change, but the blob is rewritten. -/
lemma uploadFile_uploaded_spec (st : DBState) (u : String) (jr : JobRow)
    (fr : JobFileRow) (content : List Nat) (h : Inv st) (hj : jr ∈ st.jobs)
    (hf : fr ∈ st.job_files) (hjid : jr.id = fr.job_id) (hu : jr.user_email = u)
    (hs : jr.status = "draft") (hupl : fr.upload_status = "uploaded") :
    uploadFile st u fr.job_id fr.file_index (some (.file content)) true =
      (.ok fr.file_index jr.uploaded_files jr.total_files,
       ⟨st.jobs,
        st.job_files.map (updRow fr.job_id fr.file_index),
        st.job_recipients,
        putBlob fr.storage_key content st.blobs⟩) := by
  have hfr := findFileRow_eq_some st u h.2.1 hj hf hjid hu hs
  have hzero : st.job_files.countP (pendingAt fr.job_id fr.file_index) = 0 := by
    rw [List.countP_eq_zero]
    intro g hg hpg
    simp only [pendingAt, Bool.and_eq_true, beq_iff_eq] at hpg
    have hge : g = fr := fileKey_unique h.2.1 hg hf hpg.1.1 hpg.1.2
    rw [hge, hupl] at hpg
    exact absurd hpg.2 (by decide)
  have hwrites :=
    applyUploadWrites_eq st fr.job_id fr.file_index fr.storage_key content
  rw [if_neg (by omega)] at hwrites
  have hfind2 : (applyUploadWrites st fr.job_id fr.file_index fr.storage_key
      content).jobs.find? (fun j => j.id == fr.job_id) = some jr := by
    rw [hwrites]
    apply find?_eq_some_of_unique hj
    · simp [hjid]
    · intro a ha hpa
      simp only [beq_iff_eq] at hpa
      exact jobId_unique h.1 ha hj (by rw [hpa, hjid])
  unfold uploadFile
  rw [hfr]
  simp only [Bool.not_true, Bool.false_eq_true, if_false]
  rw [hfind2, hwrites]

/-- C2 (amended): for a still-pending registered index of an owned draft
job, calling upload-file twice succeeds both times, rewrites the blob under
the pre-assigned key on each call, and moves `uploadedFiles` from its
initial value to exactly initial + 1 — the second call does not increment
again. (As frozen, the claim also quantifies over already-uploaded indices,
where the two calls increment by 0; see the counterexample.) -/
theorem upload_idempotent_pending (st : DBState) (u : String) (jr : JobRow)
    (fr : JobFileRow) (c1 c2 : List Nat) (h : Inv st) (hj : jr ∈ st.jobs)
    (hf : fr ∈ st.job_files) (hjid : jr.id = fr.job_id) (hu : jr.user_email = u)
    (hs : jr.status = "draft") (hpend : fr.upload_status = "pending") :
    (uploadFile st u fr.job_id fr.file_index (some (.file c1)) true).1 =
        .ok fr.file_index (jr.uploaded_files + 1) jr.total_files ∧
    getBlob fr.storage_key
        (uploadFile st u fr.job_id fr.file_index (some (.file c1)) true).2.blobs =
      some c1 ∧
    (uploadFile (uploadFile st u fr.job_id fr.file_index (some (.file c1)) true).2
        u fr.job_id fr.file_index (some (.file c2)) true).1 =
      .ok fr.file_index (jr.uploaded_files + 1) jr.total_files ∧
    getBlob fr.storage_key
        (uploadFile (uploadFile st u fr.job_id fr.file_index (some (.file c1))
          true).2 u fr.job_id fr.file_index (some (.file c2)) true).2.blobs =
      some c2 ∧
    ∀ j ∈ (uploadFile (uploadFile st u fr.job_id fr.file_index (some (.file c1))
        true).2 u fr.job_id fr.file_index (some (.file c2)) true).2.jobs,
      j.id = fr.job_id → j.uploaded_files = jr.uploaded_files + 1 := by
  have hcall1 := uploadFile_pending_spec st u jr fr c1 h hj hf hjid hu hs hpend
  have hpos : 0 < st.job_files.countP (pendingAt fr.job_id fr.file_index) :=
    List.countP_pos_iff.mpr ⟨fr, hf, by simp [pendingAt, hpend]⟩
  have hw := applyUploadWrites_eq st fr.job_id fr.file_index fr.storage_key c1
  rw [if_pos hpos] at hw
  have hinv1 : Inv (⟨st.jobs.map (incRow fr.job_id),
      st.job_files.map (updRow fr.job_id fr.file_index),
      st.job_recipients, putBlob fr.storage_key c1 st.blobs⟩ : DBState) := by
    rw [← hw]
    exact applyUploadWrites_inv st fr.job_id fr.file_index fr.storage_key c1 h
  have hinc : incRow fr.job_id jr =
      { jr with uploaded_files := jr.uploaded_files + 1 } := by
    unfold incRow
    rw [if_pos (by simp [hjid])]
  have hupd : updRow fr.job_id fr.file_index fr =
      { fr with upload_status := "uploaded" } := by
    unfold updRow
    rw [if_pos (by simp [pendingAt, hpend])]
  have hj1 : ({ jr with uploaded_files := jr.uploaded_files + 1 } : JobRow) ∈
      st.jobs.map (incRow fr.job_id) := by
    rw [← hinc]
    exact List.mem_map_of_mem _ hj
  have hf1 : ({ fr with upload_status := "uploaded" } : JobFileRow) ∈
      st.job_files.map (updRow fr.job_id fr.file_index) := by
    rw [← hupd]
    exact List.mem_map_of_mem _ hf
  have hcall2 := uploadFile_uploaded_spec
    (⟨st.jobs.map (incRow fr.job_id),
      st.job_files.map (updRow fr.job_id fr.file_index),
      st.job_recipients, putBlob fr.storage_key c1 st.blobs⟩ : DBState) u
    { jr with uploaded_files := jr.uploaded_files + 1 }
    { fr with upload_status := "uploaded" } c2 hinv1 hj1 hf1 hjid hu hs rfl
  dsimp only at hcall2
  refine ⟨?_, ?_, ?_, ?_, ?_⟩
  · rw [hcall1]
  · rw [hcall1]
    exact getBlob_putBlob fr.storage_key c1 st.blobs
  · rw [hcall1]
    dsimp only
    rw [hcall2]
  · rw [hcall1]
    dsimp only
    rw [hcall2]
    exact getBlob_putBlob fr.storage_key c2 _
  · rw [hcall1]
    dsimp only
    rw [hcall2]
    dsimp only
    intro j hjm hid
    rcases List.mem_map.mp hjm with ⟨j0, hj0, rfl⟩
    have hj0id : j0.id = fr.job_id := by rwa [incRow_id] at hid
    have hj0e : j0 = jr := jobId_unique h.1 hj0 hj (by rw [hj0id, hjid])
    rw [hj0e, hinc]

/-- C2 as frozen is false: in a reachable store (`cexState`) holding a
draft job owned by the caller whose registered index 0 is already uploaded,
two further upload-file calls on index 0 both succeed but leave
`uploadedFiles` at 1 — incremented by 0, not by 1. -/
theorem upload_idem_counterexample :
    (findJob cexState "job-2" "alice@example.com").map
        (fun j => (j.status, j.uploaded_files)) = some ("draft", 1) ∧
    (cexState.job_files.any fun f =>
        f.job_id == "job-2" && f.file_index == 0) = true ∧
    cexCall1.1 = .ok 0 1 1 ∧
    cexCall2.1 = .ok 0 1 1 ∧
    (findJob cexCall2.2 "job-2" "alice@example.com").map
        (·.uploaded_files) = some 1 := by
  decide

/-- C3 as frozen is false: the state trace a reader can observe during
create-draft is not all-or-nothing — after the handler's first awaited
`INSERT INTO jobs` statement the Job row is visible with zero of its
JobFile/Recipient rows. -/
theorem create_draft_atomic_counterexample :
    atomicToReaders
      (createDraftTrace dbEmpty "alice@example.com" wSecurity wRecipients
        [⟨"docs", "a.png", 10⟩] "job-3" ["u0"]) "job-3" 1 1 = false := by
  decide

/-- C3 (amended): create-draft performs two store writes, not one single
batch: the Job row is inserted by its own awaited statement, and only the
JobFile and Recipient rows go through the batched all-or-nothing write.
Between the two writes a reader observes the Job row with none of its child
rows (this is also the state left behind if the batch fails); after the
batch, every row of the new job exists. -/
theorem create_draft_two_phase (st : DBState) (u : String)
    (security : SecurityOptions) (recipients : List Recipient)
    (fileMeta : List DraftFileMetaItem) (J : String) (uuids : List String)
    (hlen : uuids.length = fileMeta.length)
    (hfresh : ∀ f ∈ st.job_files, f.job_id ≠ J)
    (hfreshr : ∀ r ∈ st.job_recipients, r.job_id ≠ J) :
    ((createDraftJobInsert st J u security fileMeta.length).jobs.any
        (fun j => j.id == J)) = true ∧
    (createDraftJobInsert st J u security fileMeta.length).job_files.filter
        (fun f => f.job_id == J) = [] ∧
    (createDraftJobInsert st J u security fileMeta.length).job_recipients.filter
        (fun r => r.job_id == J) = [] ∧
    ((createDraft st u security recipients fileMeta J uuids).2.jobs.any
        (fun j => j.id == J)) = true ∧
    ((createDraft st u security recipients fileMeta J uuids).2.job_files.filter
        (fun f => f.job_id == J)).length = fileMeta.length ∧
    ((createDraft st u security recipients fileMeta J uuids).2.job_recipients.filter
        (fun r => r.job_id == J)).length = recipients.length := by
  have hjobany : (st.jobs ++ [draftJobRow J u security fileMeta.length]).any
      (fun j => j.id == J) = true := by
    rw [List.any_eq_true]
    exact ⟨draftJobRow J u security fileMeta.length,
      List.mem_append.mpr (Or.inr (by simp)), by simp [draftJobRow]⟩
  have hfilnil : st.job_files.filter (fun f => f.job_id == J) = [] :=
    List.filter_eq_nil_iff.mpr (fun f hfm => by simpa using hfresh f hfm)
  have hrecnil : st.job_recipients.filter (fun r => r.job_id == J) = [] :=
    List.filter_eq_nil_iff.mpr (fun r hrm => by simpa using hfreshr r hrm)
  have hfilall : (draftFileRows J fileMeta uuids).filter
      (fun f => f.job_id == J) = draftFileRows J fileMeta uuids :=
    List.filter_eq_self.mpr (fun f hfm => by
      rcases List.mem_map.mp hfm with ⟨p, hp, rfl⟩
      simp)
  have hrecall : (draftRecipientRows J recipients).filter
      (fun r => r.job_id == J) = draftRecipientRows J recipients :=
    List.filter_eq_self.mpr (fun r hrm => by
      rcases List.mem_map.mp hrm with ⟨p, hp, rfl⟩
      simp)
  refine ⟨?_, ?_, ?_, ?_, ?_, ?_⟩
  · exact hjobany
  · exact hfilnil
  · exact hrecnil
  · exact hjobany
  · show ((st.job_files ++ draftFileRows J fileMeta uuids).filter
        (fun f => f.job_id == J)).length = fileMeta.length
    rw [List.filter_append, hfilnil, hfilall, List.nil_append]
    unfold draftFileRows
    rw [List.length_map, List.enum_length, List.length_zip, hlen]
    omega
  · show ((st.job_recipients ++ draftRecipientRows J recipients).filter
        (fun r => r.job_id == J)).length = recipients.length
    rw [List.filter_append, hrecnil, hrecall, List.nil_append]
    unfold draftRecipientRows
    rw [List.length_map]

/-! ### Closed-form corollaries instantiating the hypotheses -/

theorem uploaded_counter_matches_rows_witness :
    Inv wDraftState ∧
    ∀ j ∈ (applyUploads wDraftState wCalls).jobs,
      j.uploaded_files = uploadedCount (applyUploads wDraftState wCalls) j.id :=
  ⟨by decide, uploaded_counter_matches_rows wDraftState wCalls (by decide)⟩

theorem upload_idempotent_pending_witness :
    Inv wSubmitState ∧
    ((uploadFile wSubmitState "alice@example.com" "job-4" 1
        (some (.file [1])) true).1 = .ok 1 2 2 ∧
     getBlob "k1" (uploadFile wSubmitState "alice@example.com" "job-4" 1
        (some (.file [1])) true).2.blobs = some [1] ∧
     (uploadFile (uploadFile wSubmitState "alice@example.com" "job-4" 1
        (some (.file [1])) true).2 "alice@example.com" "job-4" 1
        (some (.file [2])) true).1 = .ok 1 2 2 ∧
     getBlob "k1" (uploadFile (uploadFile wSubmitState "alice@example.com"
        "job-4" 1 (some (.file [1])) true).2 "alice@example.com" "job-4" 1
        (some (.file [2])) true).2.blobs = some [2] ∧
     ∀ j ∈ (uploadFile (uploadFile wSubmitState "alice@example.com" "job-4" 1
        (some (.file [1])) true).2 "alice@example.com" "job-4" 1
        (some (.file [2])) true).2.jobs,
       j.id = "job-4" → j.uploaded_files = 2) :=
  ⟨by decide,
   upload_idempotent_pending wSubmitState "alice@example.com" wJobDraft
     wFilePending [1] [2] (by decide) (by decide) (by decide) rfl rfl rfl rfl⟩

theorem create_draft_two_phase_witness :
    (["u0"] : List String).length = ([⟨"docs", "a.png", 10⟩] :
        List DraftFileMetaItem).length ∧
    (((createDraftJobInsert dbEmpty "job-5" "alice@example.com" wSecurity
        1).jobs.any (fun j => j.id == "job-5")) = true ∧
     (createDraftJobInsert dbEmpty "job-5" "alice@example.com" wSecurity
        1).job_files.filter (fun f => f.job_id == "job-5") = [] ∧
     (createDraftJobInsert dbEmpty "job-5" "alice@example.com" wSecurity
        1).job_recipients.filter (fun r => r.job_id == "job-5") = [] ∧
     ((createDraft dbEmpty "alice@example.com" wSecurity wRecipients
        [⟨"docs", "a.png", 10⟩] "job-5" ["u0"]).2.jobs.any
        (fun j => j.id == "job-5")) = true ∧
     ((createDraft dbEmpty "alice@example.com" wSecurity wRecipients
        [⟨"docs", "a.png", 10⟩] "job-5" ["u0"]).2.job_files.filter
        (fun f => f.job_id == "job-5")).length = 1 ∧
     ((createDraft dbEmpty "alice@example.com" wSecurity wRecipients
        [⟨"docs", "a.png", 10⟩] "job-5" ["u0"]).2.job_recipients.filter
        (fun r => r.job_id == "job-5")).length = 1) :=
  ⟨rfl,
   create_draft_two_phase dbEmpty "alice@example.com" wSecurity wRecipients
     [⟨"docs", "a.png", 10⟩] "job-5" ["u0"] rfl (by decide) (by decide)⟩

theorem submit_gate_correct_witness :
    Inv wSubmitState ∧
    ((wJobDraft.status ≠ "draft" →
        submitJob wSubmitState "alice@example.com" wJobDraft.id =
          (.err 400 "Already submitted.", wSubmitState)) ∧
     (wJobDraft.status = "draft" →
        wJobDraft.uploaded_files < wJobDraft.total_files →
        submitJob wSubmitState "alice@example.com" wJobDraft.id =
          (.err 400 "Not all files have been uploaded yet.", wSubmitState)) ∧
     (wJobDraft.status = "draft" →
        wJobDraft.uploaded_files = wJobDraft.total_files →
        submitJob wSubmitState "alice@example.com" wJobDraft.id =
          (.ok wJobDraft.id, { wSubmitState with
            jobs := wSubmitState.jobs.map (setStatusRow wJobDraft.id "pending") })) ∧
     ((submitJob wSubmitState "alice@example.com" wJobDraft.id).1 =
          .ok wJobDraft.id ↔
        wJobDraft.status = "draft" ∧
          wJobDraft.uploaded_files = wJobDraft.total_files)) :=
  ⟨by decide,
   submit_gate_correct wSubmitState "alice@example.com" wJobDraft
     (by decide) (by decide) rfl⟩

theorem status_pending_indices_correct_witness :
    Inv wSubmitState ∧
    ∃ resp, getJobStatus wSubmitState "alice@example.com" wJobDraft.id =
        some resp ∧
      resp.totalFiles = wJobDraft.total_files ∧
      resp.uploadedFiles = wJobDraft.uploaded_files ∧
      List.Sorted (· < ·) resp.pendingIndices ∧
      (∀ n, n ∈ resp.pendingIndices ↔ ∃ f ∈ wSubmitState.job_files,
        f.job_id = wJobDraft.id ∧ f.upload_status = "pending" ∧
          f.file_index = n) ∧
      resp.pendingIndices.length = resp.totalFiles - resp.uploadedFiles :=
  ⟨by decide,
   status_pending_indices_correct wSubmitState "alice@example.com" wJobDraft
     (by decide) (by decide) rfl⟩

theorem upload_rejected_after_submit_witness :
    Inv wPendingState ∧ wJobPending ∈ wPendingState.jobs ∧
    (wJobPending.status = "pending" ∨ wJobPending.status = "completed") ∧
    uploadFile wPendingState "bob@example.com" "job-9" 0 (some (.file [7]))
        true =
      (.err 404 "File not found or job is not in draft state.",
       wPendingState) :=
  ⟨by decide, by decide, Or.inl rfl,
   upload_rejected_after_submit wPendingState "bob@example.com" "job-9" 0
     (some (.file [7])) true wJobPending (by decide) (by decide) rfl
     (Or.inl rfl)⟩

theorem ownership_not_found_uniform_witness :
    Inv wPendingState ∧
    (uploadFile wPendingState "mallory@example.com" "job-9" 0 none false =
        (.err 404 "File not found or job is not in draft state.",
         wPendingState) ∧
     uploadFile wPendingState "mallory@example.com" "job-none" 0 none false =
        (.err 404 "File not found or job is not in draft state.",
         wPendingState) ∧
     getJobStatus wPendingState "mallory@example.com" "job-9" = none ∧
     getJobStatus wPendingState "mallory@example.com" "job-none" = none ∧
     submitJob wPendingState "mallory@example.com" "job-9" =
        (.err 404 "Job not found.", wPendingState) ∧
     submitJob wPendingState "mallory@example.com" "job-none" =
        (.err 404 "Job not found.", wPendingState)) :=
  ⟨by decide,
   ownership_not_found_uniform wPendingState "mallory@example.com" "job-none"
     0 none false wJobPending (by decide) (by decide) (by decide) (by decide)
     (by decide)⟩

theorem missing_file_field_rejected_witness :
    Inv wSubmitState ∧
    uploadFile wSubmitState "alice@example.com" "job-4" 1 none true =
      (.err 400 "Missing \"file\" field.", wSubmitState) :=
  ⟨by decide,
   missing_file_field_rejected wSubmitState "alice@example.com" wJobDraft
     wFilePending none true (by decide) (by decide) (by decide) rfl rfl rfl
     (Or.inl rfl)⟩

end PicDrm
